import Mathlib

/-
Verification of the key-value store in src/kv-store.js.

The store is a single JavaScript object `store` mapping string keys to
JSON-serializable values.  We embed it as an association list that keeps the
object's insertion order and holds each key at most once (reachable states of
a JS object never hold a key twice).  Each exported function of kv-store.js is
embedded below; every mutating function ends with `await saveStore()`, whose
try/catch swallows any write error, which we model by passing the outcome of
the file write in explicitly.
-/

namespace StreamHub

/-- JSON-serializable values stored by the application (kv-store.js stores
arbitrary JSON documents; numbers are modeled as integers, which covers every
value the repository stores). -/
inductive JSVal where
  | null
  | bool (b : Bool)
  | num (n : Int)
  | str (s : String)
  | arr (elems : List JSVal)
  | obj (fields : List (String × JSVal))

/-- Truthiness of a JSON value under JavaScript boolean coercion, as used by
the `store[key] || null` expression: null, false, 0 and the empty string are
falsy; arrays and objects are always truthy. -/
def truthy : JSVal → Bool
  | .null => false
  | .bool b => b
  | .num n => !(n == 0)
  | .str s => !(s == "")
  | .arr _ => true
  | .obj _ => true

/-- The in-memory mapping `store` of kv-store.js (line 14): string keys in
insertion order, each key unique in reachable states. -/
abbrev Store := List (String × JSVal)

/-- Property lookup `store[key]`: the value stored at the key, if present. -/
def assocLookup : Store → String → Option JSVal
  | [], _ => none
  | (k', v) :: rest, k => if k' = k then some v else assocLookup rest k

/-- Embeds JavaScript `key.startsWith(p)` (kv-store.js line 108). -/
def jsStartsWith (s p : String) : Bool := p.data.isPrefixOf s.data

/-- The expression `store[key] || null` shared verbatim by `get` (line 68) and
`mget` (line 85): the stored value when present and truthy, null otherwise
(an absent key reads as `undefined`, which `|| null` turns into null). -/
def indexOrNull (s : Store) (k : String) : JSVal :=
  match assocLookup s k with
  | some v => if truthy v then v else JSVal.null
  | none => JSVal.null

/-- Embeds kv-store.js `get` (lines 66-69): `return store[key] || null`. -/
def get (s : Store) (k : String) : JSVal := indexOrNull s k

/-- Embeds the assignment `store[key] = value` of kv-store.js `set`
(lines 71-75): an existing key keeps its position and gets the new value, a
new key is appended (JavaScript object insertion order). -/
def set : Store → String → JSVal → Store
  | [], k, v => [(k, v)]
  | (k', v') :: rest, k, v =>
      if k' = k then (k, v) :: rest else (k', v') :: set rest k v

/-- Embeds `delete store[key]` of kv-store.js `del` (lines 77-81): the key is
removed if present, and the statement is a no-op otherwise. -/
def del : Store → String → Store
  | [], _ => []
  | (k', v') :: rest, k =>
      if k' = k then del rest k else (k', v') :: del rest k

/-- Embeds kv-store.js `mget` (lines 83-86):
`keys.map(key => store[key] || null)`. -/
def mget (s : Store) (ks : List String) : List JSVal :=
  ks.map (fun k => indexOrNull s k)

/-- Embeds kv-store.js `mset` (lines 88-94): the for-of loop assigns
`store[key] = value` for each pair in order. -/
def mset (s : Store) (ps : List (String × JSVal)) : Store :=
  ps.foldl (fun acc kv => set acc kv.1 kv.2) s

/-- Embeds kv-store.js `mdel` (lines 96-102): the for-of loop runs
`delete store[key]` for each key in order. -/
def mdel (s : Store) (ks : List String) : Store :=
  ks.foldl (fun acc k => del acc k) s

/-- Embeds kv-store.js `getByPrefix` (lines 104-113): the loop over
`Object.entries(store)` pushes every entry whose key starts with the given
string, in iteration (insertion) order. -/
def getByPrefix : Store → String → List (String × JSVal)
  | [], _ => []
  | (k, v) :: rest, p =>
      if jsStartsWith k p then (k, v) :: getByPrefix rest p
      else getByPrefix rest p

/-- Observable persistent state: the in-memory mapping together with the last
snapshot successfully written to the data file (none if no write ever
succeeded). -/
structure Sys where
  store : Store
  disk : Option Store

/-- Embeds kv-store.js `saveStore` (lines 52-64): the try/catch around
`fs.writeFile` logs a failed write and returns normally, so a failing write
(writeOk = false) leaves both the mapping and the last good snapshot
untouched, and never raises. -/
def saveStore (writeOk : Bool) (sys : Sys) : Sys :=
  if writeOk then { sys with disk := some sys.store } else sys

/-- Embeds kv-store.js `set` (lines 71-75) as a state transformer: the
assignment mutates the mapping, then `await saveStore()` runs with the given
write outcome; no code path throws, hence the result is always ok. -/
def setCall (sys : Sys) (k : String) (v : JSVal) (writeOk : Bool) :
    Except String Sys :=
  Except.ok (saveStore writeOk { sys with store := set sys.store k v })

/-- Embeds kv-store.js `del` (lines 77-81) as a state transformer. -/
def delCall (sys : Sys) (k : String) (writeOk : Bool) : Except String Sys :=
  Except.ok (saveStore writeOk { sys with store := del sys.store k })

/-- Embeds kv-store.js `mset` (lines 88-94) as a state transformer: all
assignments are applied, then a single save attempt runs. -/
def msetCall (sys : Sys) (ps : List (String × JSVal)) (writeOk : Bool) :
    Except String Sys :=
  Except.ok (saveStore writeOk { sys with store := mset sys.store ps })

/-- Embeds kv-store.js `mdel` (lines 96-102) as a state transformer. -/
def mdelCall (sys : Sys) (ks : List String) (writeOk : Bool) :
    Except String Sys :=
  Except.ok (saveStore writeOk { sys with store := mdel sys.store ks })

/-- Embeds kv-store.js `initializeStore` (lines 18-49).  In production mode
the store starts empty with no file access.  Otherwise the combined outcome of
`fs.readFile` + `JSON.parse` is passed in: on success the parsed mapping
becomes the store, and the inner catch (lines 37-41) turns any failure
(missing file, malformed content) into the empty mapping; the outer catch
(lines 44-48) does the same, so initialization never raises. -/
def initializeStore (production : Bool) (readParse : Except String Store) :
    Store :=
  if production then []
  else
    match readParse with
    | .ok loaded => loaded
    | .error _ => []

/-- The value `{title:"A", views:0}` from the spec's concrete scenario. -/
def videoA : JSVal := .obj [("title", .str "A"), ("views", .num 0)]

/-- The value `{title:"B", views:5}` from the spec's concrete scenario. -/
def videoB : JSVal := .obj [("title", .str "B"), ("views", .num 5)]

/- Helper lemmas about the embedded operations. -/

lemma assocLookup_set_self (s : Store) (k : String) (v : JSVal) :
    assocLookup (set s k v) k = some v := by
  induction s with
  | nil => simp [set, assocLookup]
  | cons hd tl ih =>
      obtain ⟨k', v'⟩ := hd
      by_cases h : k' = k
      · simp [set, h, assocLookup]
      · simp [set, h, assocLookup, ih]

lemma assocLookup_set_ne (s : Store) (k k' : String) (v : JSVal)
    (h : k' ≠ k) : assocLookup (set s k' v) k = assocLookup s k := by
  induction s with
  | nil => simp [set, assocLookup, h]
  | cons hd tl ih =>
      obtain ⟨k'', v''⟩ := hd
      by_cases h2 : k'' = k'
      · subst h2
        simp [set, assocLookup, h]
      · simp only [set, if_neg h2]
        by_cases h3 : k'' = k
        · simp [assocLookup, h3]
        · simp [assocLookup, h3, ih]

lemma assocLookup_del_self (s : Store) (k : String) :
    assocLookup (del s k) k = none := by
  induction s with
  | nil => simp [del, assocLookup]
  | cons hd tl ih =>
      obtain ⟨k', v'⟩ := hd
      by_cases h : k' = k
      · simp [del, h, ih]
      · simp [del, h, assocLookup, ih]

lemma assocLookup_del_ne (s : Store) (k k' : String) (h : k' ≠ k) :
    assocLookup (del s k') k = assocLookup s k := by
  induction s with
  | nil => simp [del]
  | cons hd tl ih =>
      obtain ⟨k'', v''⟩ := hd
      by_cases h2 : k'' = k'
      · subst h2
        simp [del, assocLookup, h, ih]
      · by_cases h3 : k'' = k
        · subst h3
          simp [del, h2, assocLookup]
        · simp [del, h2, assocLookup, h3, ih]

lemma del_of_lookup_none (s : Store) (k : String)
    (h : assocLookup s k = none) : del s k = s := by
  induction s with
  | nil => simp [del]
  | cons hd tl ih =>
      obtain ⟨k', v'⟩ := hd
      by_cases h2 : k' = k
      · simp [assocLookup, h2] at h
      · simp only [assocLookup, if_neg h2] at h
        simp [del, h2, ih h]

lemma lookup_some_mem (s : Store) (k : String) (v : JSVal)
    (h : assocLookup s k = some v) : (k, v) ∈ s := by
  induction s with
  | nil => simp [assocLookup] at h
  | cons hd tl ih =>
      obtain ⟨k', v'⟩ := hd
      by_cases h2 : k' = k
      · subst h2
        simp [assocLookup] at h
        subst h
        exact List.mem_cons_self _ _
      · simp only [assocLookup, if_neg h2] at h
        exact List.mem_cons_of_mem _ (ih h)

lemma getByPrefix_eq_filter (s : Store) (p : String) :
    getByPrefix s p = s.filter (fun kv => jsStartsWith kv.1 p) := by
  induction s with
  | nil => simp [getByPrefix]
  | cons hd tl ih =>
      obtain ⟨k, v⟩ := hd
      by_cases h : jsStartsWith k p = true
      · simp [getByPrefix, h, List.filter, ih]
      · simp only [Bool.not_eq_true] at h
        simp [getByPrefix, h, List.filter, ih]

lemma mset_lookup_preserved (ps : List (String × JSVal)) (s : Store)
    (k : String) (h : ∀ q ∈ ps, q.1 ≠ k) :
    assocLookup (mset s ps) k = assocLookup s k := by
  induction ps generalizing s with
  | nil => simp [mset]
  | cons q qs ih =>
      have hq : q.1 ≠ k := h q (List.mem_cons_self _ _)
      have hrest : ∀ r ∈ qs, r.1 ≠ k := fun r hr =>
        h r (List.mem_cons_of_mem _ hr)
      calc assocLookup (mset s (q :: qs)) k
          = assocLookup (mset (set s q.1 q.2) qs) k := rfl
        _ = assocLookup (set s q.1 q.2) k := ih (set s q.1 q.2) hrest
        _ = assocLookup s k := assocLookup_set_ne s k q.1 q.2 hq

lemma mdel_lookup_preserved (ks : List String) (s : Store) (k : String)
    (h : k ∉ ks) : assocLookup (mdel s ks) k = assocLookup s k := by
  induction ks generalizing s with
  | nil => simp [mdel]
  | cons k' ks' ih =>
      have hk : k' ≠ k := fun he => h (he ▸ List.mem_cons_self _ _)
      have hrest : k ∉ ks' := fun hm => h (List.mem_cons_of_mem _ hm)
      calc assocLookup (mdel s (k' :: ks')) k
          = assocLookup (mdel (del s k') ks') k := rfl
        _ = assocLookup (del s k') k := ih (del s k') hrest
        _ = assocLookup s k := assocLookup_del_ne s k k' hk

/- Claim theorems. -/

/-- C1, counterexample: the claim as stated fails on the code.  Storing the
JSON value 0 under key "k" and reading it back does not return 0, because
`store[key] || null` coerces the stored falsy value to null. -/
theorem set_get_falsy_counterexample :
    ¬ (get (set [] "k" (JSVal.num 0)) "k" = JSVal.num 0) :=
  fun h => JSVal.noConfusion h

/-- C1 (amended): for every key k and every JSON-serializable value v that is
truthy under JavaScript coercion (not null, false, 0, or the empty string),
set(k, v) followed by get(k), with no intervening set or delete of k,
returns v. -/
theorem set_then_get_truthy (s : Store) (k : String) (v : JSVal)
    (hv : truthy v = true) : get (set s k v) k = v := by
  simp [get, indexOrNull, assocLookup_set_self, hv]

/-- C1 witness: the amended theorem applied at key "x" and value "A". -/
theorem set_then_get_truthy_witness :
    truthy (JSVal.str "A") = true ∧
    get (set [] "x" (JSVal.str "A")) "x" = JSVal.str "A" :=
  ⟨rfl, set_then_get_truthy [] "x" (JSVal.str "A") rfl⟩

/-- C2: for every key k not present in the mapping (never set, or deleted and
not re-set), get(k) returns the absent indicator null; get is a total
function, so this is not an error. -/
theorem get_unset_key_null (s : Store) (k : String)
    (h : assocLookup s k = none) : get s k = JSVal.null := by
  simp [get, indexOrNull, h]

/-- C2 witness: reading the absent key "b" from a store holding only "a". -/
theorem get_unset_key_null_witness :
    assocLookup [("a", JSVal.num 1)] "b" = none ∧
    get [("a", JSVal.num 1)] "b" = JSVal.null :=
  ⟨rfl, get_unset_key_null [("a", JSVal.num 1)] "b" rfl⟩

/-- C3: getByPrefix returns exactly the entries whose key starts with the
given string, in the mapping's iteration order (it equals the order-preserving
filter of the store); it returns the empty sequence when no key matches; and
the spec's concrete scenario holds: after setting video:1 and video:2 the scan
returns both pairs, and after deleting video:1 it returns only video:2. -/
theorem getByPrefix_spec (s : Store) (p : String) :
    getByPrefix s p = s.filter (fun kv => jsStartsWith kv.1 p) ∧
    ((∀ kv ∈ s, jsStartsWith kv.1 p = false) → getByPrefix s p = []) ∧
    getByPrefix (set (set [] "video:1" videoA) "video:2" videoB) "video:" =
      [("video:1", videoA), ("video:2", videoB)] ∧
    getByPrefix (del (set (set [] "video:1" videoA) "video:2" videoB)
        "video:1") "video:" = [("video:2", videoB)] := by
  refine ⟨getByPrefix_eq_filter s p, ?_, rfl, rfl⟩
  intro h
  rw [getByPrefix_eq_filter]
  exact List.filter_eq_nil_iff.mpr (fun kv hm => by simp [h kv hm])

/-- C3 witness: a scan with a non-matching string returns the empty list. -/
theorem getByPrefix_spec_witness :
    getByPrefix [("a", JSVal.num 1)] "b" = [] :=
  (getByPrefix_spec [("a", JSVal.num 1)] "b").2.1 (by
    intro kv hm
    simp only [List.mem_singleton] at hm
    subst hm
    rfl)

/-- C4: for every sequence of keys, with any ordering and duplication, mget
returns a sequence of the same length whose i-th element equals get of the
i-th input key, in input order. -/
theorem mget_agrees_with_get (s : Store) (ks : List String) :
    mget s ks = ks.map (get s) ∧
    (mget s ks).length = ks.length ∧
    ∀ i : Nat, (mget s ks)[i]? = (ks[i]?).map (get s) := by
  refine ⟨rfl, by simp [mget], fun i => ?_⟩
  rw [show mget s ks = ks.map (get s) from rfl, List.getElem?_map]

/-- C5: del is total (never an error), a subsequent get of the deleted key
returns the absent indicator null, and deleting an absent key is a no-op on
the mapping. -/
theorem del_then_get_null (s : Store) (k : String) :
    get (del s k) k = JSVal.null ∧
    (assocLookup s k = none → del s k = s) := by
  constructor
  · simp [get, indexOrNull, assocLookup_del_self]
  · exact del_of_lookup_none s k

/-- C5 witness: deleting the absent key "b" leaves the store unchanged and a
subsequent get returns null. -/
theorem del_then_get_null_witness :
    get (del [("a", JSVal.num 1)] "b") "b" = JSVal.null ∧
    del [("a", JSVal.num 1)] "b" = [("a", JSVal.num 1)] :=
  ⟨(del_then_get_null [("a", JSVal.num 1)] "b").1,
   (del_then_get_null [("a", JSVal.num 1)] "b").2 rfl⟩

/-- C6: deleting the same key twice leaves the store in exactly the state a
single delete produces (idempotence of delete). -/
theorem del_idempotent (s : Store) (k : String) :
    del (del s k) k = del s k := by
  induction s with
  | nil => rfl
  | cons hd tl ih =>
      obtain ⟨k', v'⟩ := hd
      by_cases h : k' = k
      · simp [del, h, ih]
      · simp [del, h, ih]

/-- C7: after set(k, v) the mapping holds v at k, and it continues to hold v
across every subsequent operation not targeting k: a set or delete of another
key, an mset whose pairs avoid k, and an mdel whose keys avoid k (get, mget
and getByPrefix take the store as an unchanged argument in this embedding, so
they cannot alter it). -/
theorem set_frame_preservation (s : Store) (k : String) (v : JSVal) :
    assocLookup (set s k v) k = some v ∧
    (∀ k' w, k' ≠ k → assocLookup (set (set s k v) k' w) k = some v) ∧
    (∀ k', k' ≠ k → assocLookup (del (set s k v) k') k = some v) ∧
    (∀ ps, (∀ q ∈ ps, q.1 ≠ k) →
      assocLookup (mset (set s k v) ps) k = some v) ∧
    (∀ ks, k ∉ ks → assocLookup (mdel (set s k v) ks) k = some v) := by
  refine ⟨assocLookup_set_self s k v, ?_, ?_, ?_, ?_⟩
  · intro k' w h
    rw [assocLookup_set_ne _ _ _ _ h, assocLookup_set_self]
  · intro k' h
    rw [assocLookup_del_ne _ _ _ h, assocLookup_set_self]
  · intro ps h
    rw [mset_lookup_preserved ps _ k h, assocLookup_set_self]
  · intro ks h
    rw [mdel_lookup_preserved ks _ k h, assocLookup_set_self]

/-- C7 witness: the frame theorem applied with key "a" against operations on
the other key "b". -/
theorem set_frame_preservation_witness :
    assocLookup (set (set [] "a" (JSVal.num 1)) "b" (JSVal.num 2)) "a" =
      some (JSVal.num 1) ∧
    assocLookup (del (set [] "a" (JSVal.num 1)) "b") "a" =
      some (JSVal.num 1) ∧
    assocLookup (mset (set [] "a" (JSVal.num 1)) [("b", JSVal.num 2)]) "a" =
      some (JSVal.num 1) ∧
    assocLookup (mdel (set [] "a" (JSVal.num 1)) ["b"]) "a" =
      some (JSVal.num 1) :=
  ⟨(set_frame_preservation [] "a" (JSVal.num 1)).2.1 "b" (JSVal.num 2)
      (by decide),
   (set_frame_preservation [] "a" (JSVal.num 1)).2.2.1 "b" (by decide),
   (set_frame_preservation [] "a" (JSVal.num 1)).2.2.2.1 [("b", JSVal.num 2)]
      (by intro q hq; simp only [List.mem_singleton] at hq; subst hq; decide),
   (set_frame_preservation [] "a" (JSVal.num 1)).2.2.2.2 ["b"] (by decide)⟩

/-- C8: every mutating call (set, delete, mset, mdel) returns a successful
result whatever the outcome of the underlying snapshot write (the try/catch in
saveStore swallows the failure), and the resulting in-memory mapping is the
same whether the write succeeded or failed. -/
theorem mutations_ignore_write_failure (sys : Sys) (k : String) (v : JSVal)
    (ps : List (String × JSVal)) (ks : List String) (writeOk : Bool) :
    (∃ sys', setCall sys k v writeOk = Except.ok sys' ∧
      sys'.store = set sys.store k v) ∧
    (∃ sys', delCall sys k writeOk = Except.ok sys' ∧
      sys'.store = del sys.store k) ∧
    (∃ sys', msetCall sys ps writeOk = Except.ok sys' ∧
      sys'.store = mset sys.store ps) ∧
    (∃ sys', mdelCall sys ks writeOk = Except.ok sys' ∧
      sys'.store = mdel sys.store ks) := by
  refine ⟨⟨_, rfl, ?_⟩, ⟨_, rfl, ?_⟩, ⟨_, rfl, ?_⟩, ⟨_, rfl, ?_⟩⟩ <;>
    cases writeOk <;> rfl

/-- C9: initializing the store against a missing or unparsable snapshot file
(any failed read-and-parse outcome) yields the empty mapping without raising,
and every get on the freshly initialized store returns the absent indicator
null. -/
theorem initializeStore_degrades_to_empty (e : String) (k : String) :
    initializeStore false (Except.error e) = [] ∧
    get (initializeStore false (Except.error e)) k = JSVal.null :=
  ⟨rfl, rfl⟩

/-- C10: for a key present in the mapping with a falsy stored value (false, 0,
the empty string, or null), get returns null and mget returns null at that
key, while getByPrefix with a matching string still returns the pair with the
stored value — so get and the scan disagree about the same present key. -/
theorem falsy_get_scan_disagree (s : Store) (k : String) (v : JSVal)
    (p : String) (hv : assocLookup s k = some v) (hf : truthy v = false)
    (hp : jsStartsWith k p = true) :
    get s k = JSVal.null ∧ mget s [k] = [JSVal.null] ∧
    (k, v) ∈ getByPrefix s p := by
  refine ⟨?_, ?_, ?_⟩
  · simp [get, indexOrNull, hv, hf]
  · simp [mget, indexOrNull, hv, hf]
  · rw [getByPrefix_eq_filter]
    exact List.mem_filter.mpr ⟨lookup_some_mem s k v hv, hp⟩

/-- C10 witness: a store holding false under "a"; get reads null while the
scan still returns the stored pair. -/
theorem falsy_get_scan_disagree_witness :
    get [("a", JSVal.bool false)] "a" = JSVal.null ∧
    mget [("a", JSVal.bool false)] ["a"] = [JSVal.null] ∧
    ("a", JSVal.bool false) ∈ getByPrefix [("a", JSVal.bool false)] "a" :=
  falsy_get_scan_disagree [("a", JSVal.bool false)] "a" (JSVal.bool false)
    "a" rfl rfl rfl

end StreamHub
